import Mathlib

/-!
Shallow embedding of the Medic-Papers-Boost-CS study-aid application.

The repository is a client-side React application.  The parts modelled here
are the ones with decision logic:

* the topic-filtered sampling and count-clamping of `QuizView`
  (src/components/QuizView.tsx) and of `FlashcardsView` (src/index.tsx);
* the quiz-session state machine of `QuizView` (answer selection, scoring,
  progress snapshots in localStorage, restart, completion summary);
* the Fisher-Yates shuffle used by `handleStartNewQuiz`;
* the library persistence layer `getLibrary` / `saveArticle` /
  `deleteArticle` of src/index.tsx;
* the CSV exporter `handleExportCsv` of the flashcards view.

Modelling conventions:

* JavaScript strings are modelled as lists of characters (`JsString`).
* JavaScript numbers used as scores are modelled as rationals (`Rat`);
  array indices and counts are natural numbers.
* `localStorage` slots are modelled as `Option` values holding the parsed
  content of the slot (`none` = key absent); JSON round-tripping is assumed
  faithful.
* The `savedAt` ISO timestamp of an article is modelled by its epoch value
  (the number `new Date(savedAt).getTime()` that the sort comparator uses).
* `Math.random()` draws are modelled by explicitly passing the sequence of
  index draws `j = Math.floor(Math.random() * (i + 1))` consumed by the
  Fisher-Yates loop.
-/

/-- JavaScript strings are modelled as lists of characters. -/
abbrev JsString := List Char

/-- A quiz question (interface `Question` in src/index.tsx / types.ts). -/
structure Question where
  questionText : JsString
  options : List JsString
  correctAnswerIndex : Nat
  explanation : JsString
  topic : JsString
  deriving DecidableEq

/-- Quiz-level scoring settings (interface `QuizSettings`). -/
structure QuizSettings where
  positiveScore : Rat
  negativeScore : Rat
  deriving DecidableEq

/-- A quiz (interface `Quiz`). -/
structure Quiz where
  quizTitle : JsString
  settings : QuizSettings
  questions : List Question
  deriving DecidableEq

/-- A flashcard (interface `Flashcard`). -/
structure Flashcard where
  term : JsString
  definition : JsString
  topic : JsString
  deriving DecidableEq

/-- The AI analysis result embedded in a saved article (interface
`AnalysisResult`). -/
structure AnalysisResult where
  summary : JsString
  quiz : Quiz
  flashcards : List Flashcard
  deriving DecidableEq

/-- A saved library entry (interface `SavedArticle`); `savedAt` is the epoch
value of the stored ISO timestamp. -/
structure SavedArticle where
  id : JsString
  fileName : JsString
  specialty : JsString
  analysisResult : AnalysisResult
  savedAt : Nat
  deriving DecidableEq

/-- The quiz-progress snapshot written to localStorage (interface
`SavedQuizState` in src/components/QuizView.tsx). -/
structure SavedQuizState where
  quizTitle : JsString
  activeQuestions : List Question
  currentQuestionIndex : Nat
  score : Rat
  userAnswers : List (Option Nat)
  numQuestions : Nat
  deriving DecidableEq

/-- The component-local state of `QuizView` (the `useState` variables of
src/components/QuizView.tsx). -/
structure QuizViewState where
  quizStarted : Bool
  numQuestions : Nat
  activeQuestions : List Question
  currentQuestionIndex : Nat
  score : Rat
  selectedAnswerIndex : Option Nat
  isAnswered : Bool
  showExplanation : Bool
  quizFinished : Bool
  userAnswers : List (Option Nat)
  savedProgress : Option SavedQuizState
  selectedTopics : List JsString
  deriving DecidableEq

/-- `quizData.questions.filter(q => selectedTopics.includes(q.topic))`
(QuizView.tsx line 58). -/
def filteredQuestions (questions : List Question) (selectedTopics : List JsString) :
    List Question :=
  questions.filter (fun q => selectedTopics.contains q.topic)

/-- `flashcards.filter(f => selectedTopics.includes(f.topic))`
(index.tsx line 438). -/
def filteredFlashcards (cards : List Flashcard) (selectedTopics : List JsString) :
    List Flashcard :=
  cards.filter (fun f => selectedTopics.contains f.topic)

/-- The re-clamp effect of QuizView.tsx lines 86-104: given the filtered pool
size and the current slider value, the value of `numQuestions` after the
effect has run.  `maxQuestions = Math.min(20, available)`,
`minQuestions = Math.min(5, available)`; a pool of size 0 forces the count
to 0. -/
def clampNumQuestions (maxQuestionsAvailable num : Nat) : Nat :=
  if maxQuestionsAvailable = 0 then 0
  else
    let maxQuestions := min 20 maxQuestionsAvailable
    let minQuestions := min 5 maxQuestionsAvailable
    let c1 := if maxQuestions < num then maxQuestions else num
    if c1 < minQuestions then minQuestions else c1

/-- The re-clamp effect of index.tsx line 443 (FlashcardsView): same shape,
but `maxFlashcards = Math.max(minFlashcards, available)` (index.tsx
line 441), i.e. the ceiling is the full filtered pool size. -/
def clampNumFlashcards (maxFlashcardsAvailable num : Nat) : Nat :=
  if maxFlashcardsAvailable = 0 then 0
  else
    let minFlashcards := min 5 maxFlashcardsAvailable
    let maxFlashcards := max minFlashcards maxFlashcardsAvailable
    let c1 := if maxFlashcards < num then maxFlashcards else num
    if c1 < minFlashcards then minFlashcards else c1

/-- Swap the elements at positions `i` and `j` of a list, the effect of
`[shuffled[i], shuffled[j]] = [shuffled[j], shuffled[i]]` in
`handleStartNewQuiz` (QuizView.tsx line 129).  Out-of-range positions leave
the list unchanged (never hit by the source loop, whose indices are always in
range). -/
def listSwap {α : Type} (l : List α) (i j : Nat) : List α :=
  match l.get? i, l.get? j with
  | some a, some b => (l.set i b).set j a
  | _, _ => l

/-- The Fisher-Yates loop of `handleStartNewQuiz` (QuizView.tsx lines
127-130), running the index `i` down from its initial value while `i > 0` and
consuming one random draw `j = Math.floor(Math.random() * (i + 1))` per
iteration. -/
def fisherYatesAux {α : Type} (l : List α) : Nat → List Nat → List α
  | 0, _ => l
  | _ + 1, [] => l
  | k + 1, j :: js => fisherYatesAux (listSwap l (k + 1) j) k js

/-- The full Fisher-Yates shuffle of `handleStartNewQuiz`: the loop starts at
`i = shuffled.length - 1`. -/
def fisherYates {α : Type} (l : List α) (js : List Nat) : List α :=
  fisherYatesAux l (l.length - 1) js

/-- The per-question score delta applied by `handleAnswerSelect`
(QuizView.tsx lines 176-180): `positiveScore` when the chosen option index
equals `correctAnswerIndex`, `negativeScore` otherwise. -/
def answerDelta (quizData : Quiz) (q : Question) (index : Nat) : Rat :=
  if index = q.correctAnswerIndex then quizData.settings.positiveScore
  else quizData.settings.negativeScore

/-- `handleStartNewQuiz` (QuizView.tsx lines 122-145): clears the progress
key, Fisher-Yates-shuffles the filtered pool using the given random draws,
takes the first `numQuestions` elements, and resets the session state.
Returns the new component state and the new content of the progress key. -/
def handleStartNewQuiz (filtered : List Question) (js : List Nat)
    (st : QuizViewState) : QuizViewState × Option SavedQuizState :=
  let shuffled := fisherYates filtered js
  ({ st with
      activeQuestions := shuffled.take st.numQuestions,
      currentQuestionIndex := 0,
      score := 0,
      selectedAnswerIndex := none,
      isAnswered := false,
      showExplanation := false,
      quizFinished := false,
      userAnswers := List.replicate st.numQuestions none,
      quizStarted := true,
      savedProgress := none },
   none)

/-- `handleAnswerSelect` (QuizView.tsx lines 169-202).  A second click on an
already-answered question is ignored.  Otherwise the handler marks the
question answered, records the selected index, applies the score delta,
updates the per-question answer list, and writes the full progress snapshot
to the storage key.  The `none` branch of the lookup is unreachable in the
app flow (the source would throw there before mutating score or storage).
The delayed `setTimeout` explanation reveal is a timer, not state-machine
logic, and is not modelled. -/
def handleAnswerSelect (quizData : Quiz) (index : Nat)
    (st : QuizViewState) (storage : Option SavedQuizState) :
    QuizViewState × Option SavedQuizState :=
  if st.isAnswered then (st, storage)
  else
    match st.activeQuestions.get? st.currentQuestionIndex with
    | none => (st, storage)
    | some currentQuestion =>
      let newScore := st.score + answerDelta quizData currentQuestion index
      let newAnswers := st.userAnswers.set st.currentQuestionIndex (some index)
      ({ st with
          isAnswered := true,
          selectedAnswerIndex := some index,
          score := newScore,
          userAnswers := newAnswers },
       some { quizTitle := quizData.quizTitle,
              activeQuestions := st.activeQuestions,
              currentQuestionIndex := st.currentQuestionIndex,
              score := newScore,
              userAnswers := newAnswers,
              numQuestions := st.numQuestions })

/-- `handleNextQuestion` (QuizView.tsx lines 204-214): advance to the next
question, or, past the last one, flip to the finished state and remove the
progress key.  (JavaScript evaluates `length - 1` as `-1` on an empty list,
so `0 < length - 1` is false there, matching truncated subtraction.) -/
def handleNextQuestion (st : QuizViewState) (storage : Option SavedQuizState) :
    QuizViewState × Option SavedQuizState :=
  if st.currentQuestionIndex < st.activeQuestions.length - 1 then
    ({ st with
        currentQuestionIndex := st.currentQuestionIndex + 1,
        isAnswered := false,
        selectedAnswerIndex := none,
        showExplanation := false },
     storage)
  else
    ({ st with quizFinished := true }, none)

/-- `handleRestartQuiz` (QuizView.tsx lines 216-221): remove the progress
key, leave the session, drop any offered snapshot and reset the topic
selection. -/
def handleRestartQuiz (allTopics : List JsString)
    (st : QuizViewState) : QuizViewState × Option SavedQuizState :=
  ({ st with
      quizStarted := false,
      savedProgress := none,
      selectedTopics := allTopics },
   none)

/-- The load-on-mount effect of QuizView.tsx lines 67-84: read the progress
key; if its quiz title matches the loaded quiz's title, offer it via
`savedProgress`, otherwise remove the key and offer nothing.  Returns the
updated component state and the new content of the storage key. -/
def loadSavedProgress (quizTitle : JsString)
    (st : QuizViewState) (storage : Option SavedQuizState) :
    QuizViewState × Option SavedQuizState :=
  match storage with
  | none => (st, none)
  | some savedState =>
    if savedState.quizTitle = quizTitle then
      ({ st with savedProgress := some savedState }, some savedState)
    else
      (st, none)

/-- Run a list of answers through an in-progress session: for each answer,
`handleAnswerSelect` on the live question followed by `handleNextQuestion`
(the user flow of one question). -/
def runAnswers (quizData : Quiz) :
    QuizViewState × Option SavedQuizState → List Nat →
    QuizViewState × Option SavedQuizState
  | s, [] => s
  | (st, sto), a :: rest =>
    let s1 := handleAnswerSelect quizData a st sto
    runAnswers quizData (handleNextQuestion s1.1 s1.2) rest

/-- The count of correctly answered questions computed on the finished
screen (QuizView.tsx line 389):
`userAnswers.filter((answer, index) => answer === activeQuestions[index].correctAnswerIndex).length`. -/
def countCorrect (userAnswers : List (Option Nat)) (activeQuestions : List Question) : Nat :=
  (userAnswers.zip activeQuestions).countP
    (fun p => p.1 = some p.2.correctAnswerIndex)

/-- The pass flag of the finished screen (QuizView.tsx lines 390-391):
`Math.round((correctAnswers / activeQuestions.length) * 100) >= 90`.
`Math.round` of a non-negative value is floor(x + 1/2), i.e. the natural
division `(200 * c + t) / (2 * t)`. -/
def quizPassed (st : QuizViewState) : Bool :=
  let c := countCorrect st.userAnswers st.activeQuestions
  let t := st.activeQuestions.length
  90 ≤ (200 * c + t) / (2 * t)

/-- The library sort order (index.tsx line 62): the comparator
`(a, b) => new Date(b.savedAt).getTime() - new Date(a.savedAt).getTime()`
places `a` before `b` whenever `b`'s timestamp is at most `a`'s
(save-time descending; ties keep their stored order, as JavaScript's stable
sort does). -/
def savedAtDesc (a b : SavedArticle) : Prop := b.savedAt ≤ a.savedAt

instance : DecidableRel savedAtDesc := fun a b => Nat.decLe b.savedAt a.savedAt

instance : IsTotal SavedArticle savedAtDesc :=
  ⟨fun a b => Or.symm (Nat.le_total a.savedAt b.savedAt)⟩

instance : IsTrans SavedArticle savedAtDesc :=
  ⟨fun _ _ _ hab hbc => Nat.le_trans hbc hab⟩

/-- `getLibrary` (index.tsx lines 57-68): read the library key (absent or
unparsable gives the empty list) and re-sort by save timestamp descending.
A stable sort by a total preorder is modelled by insertion sort, which is
stable. -/
def getLibrary (storage : Option (List SavedArticle)) : List SavedArticle :=
  match storage with
  | none => []
  | some library => List.insertionSort savedAtDesc library

/-- `saveArticle` (index.tsx lines 70-86): prepend a freshly built article to
the current library and write the result back.  The generated `id`
(`new Date().toISOString() + Math.random()`) and the `savedAt` clock reading
are passed in as inputs.  Returns the updated library and the new storage
content. -/
def saveArticle (storage : Option (List SavedArticle))
    (id fileName specialty : JsString) (analysisResult : AnalysisResult)
    (savedAt : Nat) : List SavedArticle × Option (List SavedArticle) :=
  let library := getLibrary storage
  let newArticle : SavedArticle := ⟨id, fileName, specialty, analysisResult, savedAt⟩
  let updatedLibrary := newArticle :: library
  (updatedLibrary, some updatedLibrary)

/-- `deleteArticle` (index.tsx lines 88-97): keep exactly the articles whose
id differs from the argument and write the result back. -/
def deleteArticle (storage : Option (List SavedArticle)) (articleId : JsString) :
    List SavedArticle × Option (List SavedArticle) :=
  let library := getLibrary storage
  let updatedLibrary := library.filter (fun article => article.id != articleId)
  (updatedLibrary, some updatedLibrary)

/-- The double-quote character, written via its escape to keep it apart from
string delimiters. -/
def quoteChar : Char := '\"'

/-- The test `/[",\n]/.test(f)` of the CSV `escape` helper (index.tsx
line 454). -/
def csvSpecialChar (c : Char) : Bool := c = quoteChar || c = ',' || c = '\n'

/-- `f.replace(/"/g, '""')`: double every double-quote of the field. -/
def doubleQuotes : JsString → JsString
  | [] => []
  | c :: t =>
    if c = quoteChar then quoteChar :: quoteChar :: doubleQuotes t
    else c :: doubleQuotes t

/-- The CSV `escape` helper of `handleExportCsv` (index.tsx line 454): a
field containing a quote, comma or newline is wrapped in double quotes with
inner quotes doubled; any other field is passed through. -/
def escapeCsvField (f : JsString) : JsString :=
  if f.any csvSpecialChar then quoteChar :: (doubleQuotes f ++ [quoteChar])
  else f

/-- `row.join(',')`. -/
def csvJoinComma : List JsString → JsString
  | [] => []
  | [f] => f
  | f :: g :: rest => f ++ ',' :: csvJoinComma (g :: rest)

/-- The header row `['Term', 'Definition', 'Topic'].join(',')`. -/
def csvHeader : JsString := "Term,Definition,Topic".toList

/-- The CSV text built by `handleExportCsv` (index.tsx line 454): the header
line, then one line per filtered flashcard with term, definition and topic
escaped and comma-joined. -/
def exportCsvText (cards : List Flashcard) : JsString :=
  csvHeader ++ '\n' ::
    (cards.map (fun c =>
      csvJoinComma [escapeCsvField c.term, escapeCsvField c.definition,
        escapeCsvField c.topic] ++ ['\n'])).flatten

/-- Modelled from the spec: collapsing of doubled quotes, half of the
RFC 4180 unescape convention the spec's export property names (the source
only exports and has no unescape). -/
def undoubleQuotes : JsString → JsString
  | [] => []
  | [c] => [c]
  | c :: d :: t =>
    if c = quoteChar ∧ d = quoteChar then quoteChar :: undoubleQuotes t
    else c :: undoubleQuotes (d :: t)

/-- Modelled from the spec: the RFC 4180 unescape convention — a field
wrapped in double quotes is stripped of them and its doubled inner quotes
are collapsed; any other field is passed through. -/
def rfc4180Unescape (f : JsString) : JsString :=
  match f with
  | [] => []
  | c :: rest =>
    if c = quoteChar ∧ rest.getLast? = some quoteChar then
      undoubleQuotes rest.dropLast
    else c :: rest

/-- A small concrete question pool used to instantiate universally quantified
theorems at concrete inputs. -/
def sampleQuestionPool : List Question :=
  [⟨['a'], [['o']], 0, ['e'], ['t']⟩,
   ⟨['b'], [['o']], 1, ['e'], ['u']⟩,
   ⟨['c'], [['o']], 0, ['e'], ['t']⟩]

/-- A small concrete flashcard pool used to instantiate universally quantified
theorems at concrete inputs. -/
def sampleCardPool : List Flashcard :=
  [⟨['x'], ['y'], ['t']⟩, ⟨['z'], ['w'], ['u']⟩]

/-- A concrete quiz over `sampleQuestionPool` with +3 / -1 scoring. -/
def sampleQuiz : Quiz :=
  ⟨['Q'], ⟨3, -1⟩, sampleQuestionPool⟩

/-- A concrete in-progress session state: two questions live, none answered
yet. -/
def sampleSession : QuizViewState :=
  { quizStarted := true
    numQuestions := 2
    activeQuestions := sampleQuestionPool.take 2
    currentQuestionIndex := 0
    score := 0
    selectedAnswerIndex := none
    isAnswered := false
    showExplanation := false
    quizFinished := false
    userAnswers := [none, none]
    savedProgress := none
    selectedTopics := [['t'], ['u']] }

/-- A concrete progress snapshot, as written after answering the first
question of `sampleSession` correctly. -/
def sampleSnapshot : SavedQuizState :=
  { quizTitle := ['Q']
    activeQuestions := sampleQuestionPool.take 2
    currentQuestionIndex := 0
    score := 3
    userAnswers := [some 0, none]
    numQuestions := 2 }

/-- A concrete analysis result payload for library entries. -/
def sampleAnalysis : AnalysisResult :=
  ⟨['s'], sampleQuiz, sampleCardPool⟩

/-- A concrete library entry. -/
def sampleArticle : SavedArticle :=
  ⟨['i', '1'], ['f'], ['c'], sampleAnalysis, 50⟩

/-- A second concrete library entry with a distinct id and a later
timestamp. -/
def sampleArticle2 : SavedArticle :=
  ⟨['i', '2'], ['g'], ['c'], sampleAnalysis, 80⟩

/-- C1: for every pool and topic subset, the re-clamped count lies between
`min 5 available` and the ceiling (`min 20 available` for quizzes, `available`
for flashcards), the ceiling never exceeds the filtered pool size, and an
empty filtered pool forces the count to 0. -/
theorem clamped_count_bounds (questions : List Question) (cards : List Flashcard)
    (topics : List JsString) (numQ numF : Nat) :
    (let aQ := (filteredQuestions questions topics).length
     let cQ := clampNumQuestions aQ numQ
     (aQ = 0 → cQ = 0) ∧
     (0 < aQ → min 5 aQ ≤ cQ ∧ cQ ≤ min 20 aQ) ∧ min 20 aQ ≤ aQ) ∧
    (let aF := (filteredFlashcards cards topics).length
     let cF := clampNumFlashcards aF numF
     (aF = 0 → cF = 0) ∧
     (0 < aF → min 5 aF ≤ cF ∧ cF ≤ aF)) := by
  constructor
  · simp only [clampNumQuestions]
    split
    · omega
    · split <;> split <;> omega
  · simp only [clampNumFlashcards]
    split
    · omega
    · split <;> split <;> omega

/-- Witness for `clamped_count_bounds` at a concrete pool: three questions on
two topics with one topic selected, and two flashcards likewise. -/
theorem clamped_count_bounds_witness :
    0 < (filteredQuestions sampleQuestionPool [['t']]).length ∧
    0 < (filteredFlashcards sampleCardPool [['t']]).length ∧
    (min 5 (filteredQuestions sampleQuestionPool [['t']]).length ≤
      clampNumQuestions (filteredQuestions sampleQuestionPool [['t']]).length 10 ∧
     clampNumQuestions (filteredQuestions sampleQuestionPool [['t']]).length 10 ≤
      min 20 (filteredQuestions sampleQuestionPool [['t']]).length) ∧
    (min 5 (filteredFlashcards sampleCardPool [['t']]).length ≤
      clampNumFlashcards (filteredFlashcards sampleCardPool [['t']]).length 10 ∧
     clampNumFlashcards (filteredFlashcards sampleCardPool [['t']]).length 10 ≤
      (filteredFlashcards sampleCardPool [['t']]).length) :=
  ⟨by decide, by decide,
   (clamped_count_bounds sampleQuestionPool sampleCardPool [['t']] 10 10).1.2.1
     (by decide),
   (clamped_count_bounds sampleQuestionPool sampleCardPool [['t']] 10 10).2.2
     (by decide)⟩

/-- Consing an element that sits at position `n` of `l` over `l.set n b` is a
permutation of consing `b` over `l` (one transposition, seen head-on). -/
theorem cons_set_perm {α : Type} (a b : α) :
    ∀ (l : List α) (n : Nat), l.get? n = some a → (a :: l.set n b).Perm (b :: l)
  | [], n, h => by simp at h
  | x :: t, 0, h => by
    have hx : x = a := by simpa using h
    subst hx
    simpa using List.Perm.swap b x t
  | x :: t, n + 1, h => by
    have h' : t.get? n = some a := by simpa using h
    have step1 : (a :: x :: t.set n b).Perm (x :: a :: t.set n b) :=
      List.Perm.swap x a (t.set n b)
    have step2 : (x :: a :: t.set n b).Perm (x :: b :: t) :=
      (cons_set_perm a b t n h').cons x
    have step3 : (x :: b :: t).Perm (b :: x :: t) := List.Perm.swap b x t
    simpa using (step1.trans step2).trans step3

/-- Swapping the entries at two in-range positions of a list yields a
permutation of it. -/
theorem set_set_perm {α : Type} :
    ∀ (l : List α) (i j : Nat) (a b : α),
      l.get? i = some a → l.get? j = some b → ((l.set i b).set j a).Perm l
  | [], i, _, _, _, hi, _ => by simp at hi
  | x :: t, 0, 0, a, b, hi, hj => by
    have hxa : x = a := by simpa using hi
    have hxb : x = b := by simpa using hj
    subst hxa
    subst hxb
    simp
  | x :: t, 0, m + 1, a, b, hi, hj => by
    have hxa : x = a := by simpa using hi
    have hj' : t.get? m = some b := by simpa using hj
    subst hxa
    simpa using cons_set_perm b x t m hj'
  | x :: t, n + 1, 0, a, b, hi, hj => by
    have hxb : x = b := by simpa using hj
    have hi' : t.get? n = some a := by simpa using hi
    subst hxb
    simpa using cons_set_perm a x t n hi'
  | x :: t, n + 1, m + 1, a, b, hi, hj => by
    have hi' : t.get? n = some a := by simpa using hi
    have hj' : t.get? m = some b := by simpa using hj
    simpa using (set_set_perm t n m a b hi' hj').cons x

/-- `listSwap` yields a permutation for every pair of positions. -/
theorem listSwap_perm {α : Type} (l : List α) (i j : Nat) :
    (listSwap l i j).Perm l := by
  rw [listSwap]
  cases hi : l.get? i with
  | none => exact List.Perm.refl l
  | some a =>
    cases hj : l.get? j with
    | none => exact List.Perm.refl l
    | some b => exact set_set_perm l i j a b hi hj

/-- Every run of the Fisher-Yates loop yields a permutation of its input,
whatever the draws. -/
theorem fisherYatesAux_perm {α : Type} :
    ∀ (l : List α) (i : Nat) (js : List Nat), (fisherYatesAux l i js).Perm l
  | _, 0, _ => List.Perm.refl _
  | _, _ + 1, [] => List.Perm.refl _
  | l, k + 1, j :: js =>
    (fisherYatesAux_perm (listSwap l (k + 1) j) k js).trans
      (listSwap_perm l (k + 1) j)

/-- The Fisher-Yates shuffle of `handleStartNewQuiz` is a rearrangement of
exactly its input elements. -/
theorem fisherYates_perm {α : Type} (l : List α) (js : List Nat) :
    (fisherYates l js).Perm l :=
  fisherYatesAux_perm l (l.length - 1) js

/-- C4: starting a new quiz sets the active list to the first `numQuestions`
elements of the Fisher-Yates shuffle of the filtered pool; the shuffle is a
rearrangement of exactly the filtered pool's elements; and two runs with the
same draws (and the same requested count) produce identical active lists. -/
theorem start_new_quiz_samples_shuffle (filtered : List Question) (js : List Nat)
    (st st' : QuizViewState) :
    (handleStartNewQuiz filtered js st).1.activeQuestions =
      (fisherYates filtered js).take st.numQuestions ∧
    (fisherYates filtered js).Perm filtered ∧
    (st.numQuestions = st'.numQuestions →
      (handleStartNewQuiz filtered js st).1.activeQuestions =
        (handleStartNewQuiz filtered js st').1.activeQuestions) := by
  refine ⟨rfl, fisherYates_perm filtered js, fun h => ?_⟩
  simp [handleStartNewQuiz, h]

/-- Witness for `start_new_quiz_samples_shuffle`: two states requesting two
questions each, shuffled with the draw sequence `[1, 0]`. -/
theorem start_new_quiz_samples_shuffle_witness :
    sampleSession.numQuestions =
      ({ sampleSession with score := 5 } : QuizViewState).numQuestions ∧
    (handleStartNewQuiz sampleQuestionPool [1, 0] sampleSession).1.activeQuestions =
      (handleStartNewQuiz sampleQuestionPool [1, 0]
        { sampleSession with score := 5 }).1.activeQuestions :=
  ⟨rfl,
   (start_new_quiz_samples_shuffle sampleQuestionPool [1, 0] sampleSession
      { sampleSession with score := 5 }).2.2 rfl⟩

/-- Score invariant of the answer/advance loop: from any live unanswered
position, running one answer per remaining question adds exactly the sum of
the per-question deltas to the score. -/
theorem runAnswers_score (quizData : Quiz) :
    ∀ (answers : List Nat) (st : QuizViewState) (sto : Option SavedQuizState),
      st.isAnswered = false →
      answers.length =
        (st.activeQuestions.drop st.currentQuestionIndex).length →
      (runAnswers quizData (st, sto) answers).1.score =
        st.score + (List.zipWith (answerDelta quizData)
          (st.activeQuestions.drop st.currentQuestionIndex) answers).sum := by
  intro answers
  induction answers with
  | nil =>
    intro st sto _ hLen
    have hnil : st.activeQuestions.drop st.currentQuestionIndex = [] :=
      List.length_eq_zero.mp (by simpa using hLen.symm)
    simp [runAnswers, hnil]
  | cons a rest ih =>
    intro st sto hAns hLen
    cases hd : st.activeQuestions.drop st.currentQuestionIndex with
    | nil => rw [hd] at hLen; simp at hLen
    | cons q qs' =>
      have hq : st.activeQuestions.get? st.currentQuestionIndex = some q := by
        have := List.get?_drop st.activeQuestions st.currentQuestionIndex 0
        rw [hd] at this
        simpa using this.symm
      have hdrop1 : st.activeQuestions.drop (st.currentQuestionIndex + 1) = qs' := by
        have := List.drop_drop 1 st.currentQuestionIndex st.activeQuestions
        rw [hd] at this
        simpa using this.symm
      have hLen' : rest.length = qs'.length := by
        rw [hd] at hLen; simpa using hLen
      rw [runAnswers]
      simp only [handleAnswerSelect, hAns, Bool.false_eq_true, if_false, hq]
      by_cases hlast :
          st.currentQuestionIndex < st.activeQuestions.length - 1
      · rw [handleNextQuestion, if_pos hlast]
        rw [ih _ _ rfl (by simpa [hdrop1] using hLen')]
        simp only [hd, hdrop1, List.zipWith_cons_cons, List.sum_cons]
        ring
      · rw [handleNextQuestion, if_neg hlast]
        have hkLen : st.currentQuestionIndex < st.activeQuestions.length := by
          have h1 : (st.activeQuestions.drop st.currentQuestionIndex).length =
              st.activeQuestions.length - st.currentQuestionIndex := by
            simp
          rw [hd] at h1
          simp at h1
          omega
        have hq' : qs' = [] := by
          have h1 : (st.activeQuestions.drop st.currentQuestionIndex).length =
              st.activeQuestions.length - st.currentQuestionIndex := by
            simp
          rw [hd] at h1
          simp at h1
          have : qs'.length = 0 := by omega
          exact List.length_eq_zero.mp this
        have hrest : rest = [] :=
          List.length_eq_zero.mp (by rw [hLen', hq']; rfl)
        subst hq'
        subst hrest
        simp [runAnswers, hd]

/-- C2: for every session in which each sampled question is answered exactly
once, the final score is the sum, over the sampled questions, of
`positiveScore` when the recorded answer equals `correctAnswerIndex` and
`negativeScore` otherwise, both taken from the quiz-level settings. -/
theorem final_score_is_sum_of_deltas (quizData : Quiz) (st : QuizViewState)
    (sto : Option SavedQuizState) (answers : List Nat)
    (hAns : st.isAnswered = false) (hIdx : st.currentQuestionIndex = 0)
    (hScore : st.score = 0)
    (hLen : answers.length = st.activeQuestions.length) :
    (runAnswers quizData (st, sto) answers).1.score =
      (List.zipWith (answerDelta quizData) st.activeQuestions answers).sum := by
  have := runAnswers_score quizData answers st sto hAns (by simp [hIdx, hLen])
  simpa [hIdx, hScore] using this

/-- Witness for `final_score_is_sum_of_deltas`: both questions of
`sampleSession` answered with option 0 (the first correctly, the second
incorrectly), for a final score of 3 + (-1) = 2. -/
theorem final_score_is_sum_of_deltas_witness :
    (runAnswers sampleQuiz (sampleSession, none) [0, 0]).1.score =
      (List.zipWith (answerDelta sampleQuiz) sampleSession.activeQuestions
        [0, 0]).sum :=
  final_score_is_sum_of_deltas sampleQuiz sampleSession none [0, 0]
    (by decide) (by decide) (by decide) (by decide)

/-- C3: on mount, a stored snapshot whose quiz title differs from the loaded
quiz's title is discarded — `savedProgress` is left untouched (it stays null)
and the storage key is removed — while a snapshot with a matching title is
offered via `savedProgress` and kept in storage. -/
theorem load_discards_stale_snapshot (st : QuizViewState) (s : SavedQuizState)
    (title : JsString) :
    (s.quizTitle ≠ title →
      loadSavedProgress title st (some s) = (st, none)) ∧
    (s.quizTitle = title →
      loadSavedProgress title st (some s) =
        ({ st with savedProgress := some s }, some s)) := by
  constructor
  · intro h
    simp [loadSavedProgress, h]
  · intro h
    simp [loadSavedProgress, h]

/-- Witness for `load_discards_stale_snapshot`: `sampleSnapshot` carries the
title `Q`, which differs from `R` and matches `Q`. -/
theorem load_discards_stale_snapshot_witness :
    loadSavedProgress ['R'] sampleSession (some sampleSnapshot) =
      (sampleSession, none) ∧
    loadSavedProgress ['Q'] sampleSession (some sampleSnapshot) =
      ({ sampleSession with savedProgress := some sampleSnapshot },
        some sampleSnapshot) :=
  ⟨(load_discards_stale_snapshot sampleSession sampleSnapshot ['R']).1
     (by decide),
   (load_discards_stale_snapshot sampleSession sampleSnapshot ['Q']).2
     (by decide)⟩

/-- C9: answering is one-shot — once the current question is answered, a
further call to the answer-select handler with any option index leaves the
whole component state (score, per-question answer list, selected index
included) and the stored snapshot unchanged. -/
theorem answer_select_one_shot (quizData : Quiz) (index : Nat)
    (st : QuizViewState) (sto : Option SavedQuizState)
    (h : st.isAnswered = true) :
    handleAnswerSelect quizData index st sto = (st, sto) := by
  simp [handleAnswerSelect, h]

/-- Witness for `answer_select_one_shot`: a second click on an answered
session is ignored. -/
theorem answer_select_one_shot_witness :
    handleAnswerSelect sampleQuiz 2
        { sampleSession with isAnswered := true } (some sampleSnapshot) =
      ({ sampleSession with isAnswered := true }, some sampleSnapshot) :=
  answer_select_one_shot sampleQuiz 2 { sampleSession with isAnswered := true }
    (some sampleSnapshot) (by decide)

/-- C8: answering a live question writes the full snapshot — quiz title,
sampled questions, current index, score including the just-applied delta,
updated answer list, requested count — to the progress key; advancing past
the last question removes the key (and flips to finished); an explicit
restart removes the key. -/
theorem progress_snapshot_lifecycle (quizData : Quiz) (index : Nat)
    (st : QuizViewState) (sto : Option SavedQuizState) (q : Question)
    (allTopics : List JsString) :
    (st.isAnswered = false →
      st.activeQuestions[st.currentQuestionIndex]? = some q →
      (handleAnswerSelect quizData index st sto).2 =
        some { quizTitle := quizData.quizTitle
               activeQuestions := st.activeQuestions
               currentQuestionIndex := st.currentQuestionIndex
               score := st.score + answerDelta quizData q index
               userAnswers :=
                 st.userAnswers.set st.currentQuestionIndex (some index)
               numQuestions := st.numQuestions }) ∧
    (st.activeQuestions.length - 1 ≤ st.currentQuestionIndex →
      (handleNextQuestion st sto).2 = none ∧
      (handleNextQuestion st sto).1.quizFinished = true) ∧
    (handleRestartQuiz allTopics st).2 = none := by
  refine ⟨fun hAns hq => ?_, fun hLast => ?_, rfl⟩
  · simp [handleAnswerSelect, hAns, hq]
  · rw [handleNextQuestion, if_neg (by omega)]
    exact ⟨rfl, rfl⟩

/-- Witness for `progress_snapshot_lifecycle`: answering the first question
of `sampleSession` with option 0 writes `sampleSnapshot`; a session standing
on its last question clears the key on advance; restart clears the key. -/
theorem progress_snapshot_lifecycle_witness :
    (handleAnswerSelect sampleQuiz 0 sampleSession none).2 =
      some { quizTitle := sampleQuiz.quizTitle
             activeQuestions := sampleSession.activeQuestions
             currentQuestionIndex := sampleSession.currentQuestionIndex
             score := sampleSession.score +
               answerDelta sampleQuiz (⟨['a'], [['o']], 0, ['e'], ['t']⟩ : Question) 0
             userAnswers := sampleSession.userAnswers.set
               sampleSession.currentQuestionIndex (some 0)
             numQuestions := sampleSession.numQuestions } ∧
    (handleNextQuestion { sampleSession with currentQuestionIndex := 1 }
        (some sampleSnapshot)).2 = none ∧
    (handleRestartQuiz [['t'], ['u']] sampleSession).2 = none :=
  ⟨(progress_snapshot_lifecycle sampleQuiz 0 sampleSession none
      (⟨['a'], [['o']], 0, ['e'], ['t']⟩ : Question) [['t'], ['u']]).1 (by decide) (by decide),
   ((progress_snapshot_lifecycle sampleQuiz 0
      { sampleSession with currentQuestionIndex := 1 } (some sampleSnapshot)
      (⟨['a'], [['o']], 0, ['e'], ['t']⟩ : Question) [['t'], ['u']]).2.1 (by decide)).1,
   (progress_snapshot_lifecycle sampleQuiz 0 sampleSession none
      (⟨['a'], [['o']], 0, ['e'], ['t']⟩ : Question) [['t'], ['u']]).2.2⟩

/-- Rounding agreement: for totals up to the quiz cap of 20 questions,
`Math.round(100 * c / t) >= 90` (computed as the floor of `100c/t + 1/2`)
holds exactly when `c / t >= 9/10`. -/
theorem round_ninety_agrees_small :
    ∀ t : Nat, t < 21 → ∀ c : Nat, c < t + 1 →
      0 < t → (90 ≤ (200 * c + t) / (2 * t) ↔ 9 * t ≤ 10 * c) := by
  decide

/-- The Nat-division pass test matches the rational 90%-threshold test for
counts bounded by the total and totals of at most 20. -/
theorem passed_nat_iff_rat (c t : Nat) (ht : 0 < t) (h20 : t ≤ 20)
    (hct : c ≤ t) :
    (90 ≤ (200 * c + t) / (2 * t)) ↔
      (9 : ℚ) / 10 ≤ (c : ℚ) / (t : ℚ) := by
  have key := round_ninety_agrees_small t (by omega) c (by omega) ht
  have hQ : ((9 : ℚ) / 10 ≤ (c : ℚ) / (t : ℚ)) ↔ 9 * t ≤ 10 * c := by
    rw [div_le_div_iff₀ (by norm_num) (by exact_mod_cast ht)]
    rw [mul_comm (c : ℚ) 10]
    exact_mod_cast Iff.rfl
  rw [key, hQ]

/-- C5: a finished session passes exactly when at least 90% of the sampled
questions were answered correctly.  The totals of reachable sessions are at
most 20 (`numQuestions` is clamped to `min 20 available` and the active list
is a prefix of that length), which is the range where the source's
`Math.round(... * 100) >= 90` test agrees with the 90% ratio. -/
theorem quiz_passed_iff_ninety_percent (st : QuizViewState)
    (ht : 0 < st.activeQuestions.length)
    (h20 : st.activeQuestions.length ≤ 20) :
    quizPassed st = true ↔
      (9 : ℚ) / 10 ≤
        (countCorrect st.userAnswers st.activeQuestions : ℚ) /
          (st.activeQuestions.length : ℚ) := by
  have hct : countCorrect st.userAnswers st.activeQuestions ≤
      st.activeQuestions.length := by
    have h1 : countCorrect st.userAnswers st.activeQuestions ≤
        (st.userAnswers.zip st.activeQuestions).length := by
      unfold countCorrect
      exact List.countP_le_length _
    rw [List.length_zip] at h1
    omega
  have := passed_nat_iff_rat _ _ ht h20 hct
  simpa [quizPassed] using this

/-- Witness for `quiz_passed_iff_ninety_percent`: a finished two-question
session with both answers correct. -/
theorem quiz_passed_iff_ninety_percent_witness :
    quizPassed { sampleSession with
        userAnswers := [some 0, some 1], currentQuestionIndex := 1,
        isAnswered := true, quizFinished := true } = true ↔
      (9 : ℚ) / 10 ≤
        (countCorrect [some 0, some 1]
            ({ sampleSession with
               userAnswers := [some 0, some 1], currentQuestionIndex := 1,
               isAnswered := true,
               quizFinished := true } : QuizViewState).activeQuestions : ℚ) /
          (({ sampleSession with
              userAnswers := [some 0, some 1], currentQuestionIndex := 1,
              isAnswered := true,
              quizFinished := true } : QuizViewState).activeQuestions.length : ℚ) :=
  quiz_passed_iff_ninety_percent
    { sampleSession with
        userAnswers := [some 0, some 1], currentQuestionIndex := 1,
        isAnswered := true, quizFinished := true }
    (by decide) (by decide)

/-- The read path always yields a list sorted by save timestamp
descending. -/
theorem getLibrary_sorted (sto : Option (List SavedArticle)) :
    (getLibrary sto).Sorted savedAtDesc := by
  cases sto with
  | none => exact List.sorted_nil
  | some l => exact List.sorted_insertionSort savedAtDesc l

/-- Filtering out an element that fails the predicate distributes over an
ordered insert of it. -/
theorem filter_orderedInsert_of_neg (p : SavedArticle → Bool) (a : SavedArticle)
    (hp : p a = false) :
    ∀ l : List SavedArticle,
      (List.orderedInsert savedAtDesc a l).filter p = l.filter p
  | [] => by simp [List.orderedInsert, hp]
  | b :: l => by
    rw [List.orderedInsert]
    split
    · simp [hp]
    · rw [List.filter_cons, List.filter_cons,
        filter_orderedInsert_of_neg p a hp l]

/-- C6: saving a new article (one whose generated id is not already in the
library) and then deleting it by the id the save produced leaves the library,
as observed through `getLibrary`, exactly as it was before the save. -/
theorem save_then_delete_restores_library (sto : Option (List SavedArticle))
    (id fileName specialty : JsString) (ar : AnalysisResult) (savedAt : Nat)
    (hfresh : ∀ a ∈ getLibrary sto, a.id ≠ id) :
    getLibrary
      (deleteArticle (saveArticle sto id fileName specialty ar savedAt).2 id).2 =
      getLibrary sto := by
  have hL : List.insertionSort savedAtDesc (getLibrary sto) = getLibrary sto :=
    (getLibrary_sorted sto).insertionSort_eq
  have hpnew :
      ((⟨id, fileName, specialty, ar, savedAt⟩ : SavedArticle).id != id) =
        false := by
    simp
  have hall : ∀ a ∈ getLibrary sto, (a.id != id) = true := fun a ha =>
    bne_iff_ne.mpr (hfresh a ha)
  show getLibrary
      (deleteArticle
        (some (⟨id, fileName, specialty, ar, savedAt⟩ :: getLibrary sto))
        id).2 = getLibrary sto
  have step1 : (deleteArticle
      (some (⟨id, fileName, specialty, ar, savedAt⟩ :: getLibrary sto)) id).2 =
      some ((List.insertionSort savedAtDesc
        (⟨id, fileName, specialty, ar, savedAt⟩ :: getLibrary sto)).filter
          (fun a => a.id != id)) := rfl
  rw [step1]
  have step2 : List.insertionSort savedAtDesc
      ((⟨id, fileName, specialty, ar, savedAt⟩ : SavedArticle) ::
        getLibrary sto) =
      List.orderedInsert savedAtDesc ⟨id, fileName, specialty, ar, savedAt⟩
        (getLibrary sto) := by
    simp only [List.insertionSort]
    rw [hL]
  show List.insertionSort savedAtDesc
      ((List.insertionSort savedAtDesc
        (⟨id, fileName, specialty, ar, savedAt⟩ :: getLibrary sto)).filter
          (fun a => a.id != id)) = getLibrary sto
  rw [step2, filter_orderedInsert_of_neg _ _ hpnew,
    List.filter_eq_self.mpr hall]
  exact hL

/-- Witness for `save_then_delete_restores_library`: a one-article library,
a save under the fresh id `i2`, then a delete by that id. -/
theorem save_then_delete_restores_library_witness :
    getLibrary
      (deleteArticle
        (saveArticle (some [sampleArticle]) ['i', '2'] ['g'] ['c']
          sampleAnalysis 80).2
        ['i', '2']).2 = getLibrary (some [sampleArticle]) :=
  save_then_delete_restores_library (some [sampleArticle]) ['i', '2'] ['g']
    ['c'] sampleAnalysis 80 (by decide)

/-- C10: `deleteArticle` removes exactly the articles whose id equals its
argument — the observable library afterwards is the filter of the observable
library before — and, for an id matching no stored article, the observable
library is unchanged. -/
theorem delete_article_removes_exactly_id (sto : Option (List SavedArticle))
    (aid : JsString) :
    getLibrary (deleteArticle sto aid).2 =
      (getLibrary sto).filter (fun a => a.id != aid) ∧
    ((∀ a ∈ getLibrary sto, a.id ≠ aid) →
      getLibrary (deleteArticle sto aid).2 = getLibrary sto) := by
  have hsorted := getLibrary_sorted sto
  have h1 : getLibrary (deleteArticle sto aid).2 =
      (getLibrary sto).filter (fun a => a.id != aid) := by
    have hs : ((getLibrary sto).filter (fun a => a.id != aid)).Sorted
        savedAtDesc := hsorted.filter _
    calc getLibrary (deleteArticle sto aid).2
        = List.insertionSort savedAtDesc
            ((getLibrary sto).filter (fun a => a.id != aid)) := rfl
      _ = (getLibrary sto).filter (fun a => a.id != aid) :=
            hs.insertionSort_eq
  refine ⟨h1, fun hall => ?_⟩
  rw [h1, List.filter_eq_self.mpr fun a ha => bne_iff_ne.mpr (hall a ha)]

/-- Witness for `delete_article_removes_exactly_id`: deleting the absent id
`i2` from a one-article library leaves the observable library unchanged. -/
theorem delete_article_removes_exactly_id_witness :
    getLibrary (deleteArticle (some [sampleArticle]) ['i', '2']).2 =
      getLibrary (some [sampleArticle]) :=
  (delete_article_removes_exactly_id (some [sampleArticle]) ['i', '2']).2
    (by decide)

/-- Doubling the quotes of a field never yields the empty list from a
non-empty field. -/
theorem doubleQuotes_cons_ne_nil (c : Char) (t : JsString) :
    doubleQuotes (c :: t) ≠ [] := by
  rw [doubleQuotes]
  split <;> simp

/-- Collapsing doubled quotes undoes doubling them. -/
theorem undoubleQuotes_doubleQuotes :
    ∀ f : JsString, undoubleQuotes (doubleQuotes f) = f
  | [] => rfl
  | c :: t => by
    by_cases hc : c = quoteChar
    · subst hc
      rw [doubleQuotes, if_pos rfl, undoubleQuotes,
        if_pos ⟨rfl, rfl⟩, undoubleQuotes_doubleQuotes t]
    · rw [doubleQuotes, if_neg hc]
      cases ht : doubleQuotes t with
      | nil =>
        have htnil : t = [] := by
          cases t with
          | nil => rfl
          | cons d r => exact absurd ht (doubleQuotes_cons_ne_nil d r)
        subst htnil
        rfl
      | cons d r =>
        rw [undoubleQuotes, if_neg (fun h => hc h.1), ← ht,
          undoubleQuotes_doubleQuotes t]

/-- Escaping then unescaping a CSV field recovers the field. -/
theorem rfc4180Unescape_escapeCsvField (f : JsString) :
    rfc4180Unescape (escapeCsvField f) = f := by
  by_cases h : f.any csvSpecialChar
  · rw [escapeCsvField, if_pos h, rfc4180Unescape,
      if_pos ⟨rfl, List.getLast?_concat _⟩, List.dropLast_concat]
    exact undoubleQuotes_doubleQuotes f
  · rw [escapeCsvField, if_neg h]
    cases f with
    | nil => rfl
    | cons c rest =>
      have hc : c ≠ quoteChar := by
        intro hcq
        apply h
        subst hcq
        simp [csvSpecialChar]
      rw [rfc4180Unescape, if_neg (fun hq => hc hq.1)]

/-- C7: the CSV exporter is a pure function of the flashcard list — exporting
the same set twice yields identical text — and a field containing a comma,
quote or newline is escaped so that the RFC 4180 unescape convention recovers
the original field. -/
theorem csv_export_deterministic_and_roundtrip :
    (∀ cards : List Flashcard, exportCsvText cards = exportCsvText cards) ∧
    (∀ f : JsString, rfc4180Unescape (escapeCsvField f) = f) :=
  ⟨fun _ => rfl, rfc4180Unescape_escapeCsvField⟩

/-- The clamped quiz count never exceeds 20, so reachable sessions hold at
most 20 questions. -/
theorem clampNumQuestions_le_twenty (avail num : Nat) :
    clampNumQuestions avail num ≤ 20 := by
  simp only [clampNumQuestions]
  split
  · omega
  · split <;> split <;> omega

/-- A freshly started session holds at most the requested number of
questions. -/
theorem start_active_length_le (filtered : List Question) (js : List Nat)
    (st : QuizViewState) :
    (handleStartNewQuiz filtered js st).1.activeQuestions.length ≤
      st.numQuestions := by
  simp [handleStartNewQuiz]
